import Mathlib

/-!
# diary backend: the request-authorization pipeline

A shallow embedding of `backend/main.go` and `backend/config.go`.

* A Go string that carries data of a request or a response (header values, error texts,
  message texts, bodies, printed text) is a sequence of bytes, `GoString`; it need not be
  valid UTF-8. Names (header names, methods, paths, context keys) and the configuration
  values are Lean strings.
* `http.Header` is an association list from canonical header names to their values.
* A handler is a state transformer: it receives the execution state (the
  `http.ResponseWriter`, what was printed and logged, and whatever else a
  handler can touch) and the request, and returns the new state.
* Functions of third-party packages (`jwt.Parse`, `jwk.Fetch`, path
  canonicalisation of `net/http`) are parameters.
-/

set_option autoImplicit false

namespace Diary

/-! ## Go strings -/

/-- A Go `string` as data: a sequence of bytes, each a natural number below 256. -/
abbrev GoString := List Nat

/-- The UTF-8 encoding of a code point (`utf8.AppendRune`). -/
def utf8EncodeRune (r : Nat) : GoString :=
  if r < 0x80 then [r]
  else if r < 0x800 then [0xC0 + r / 64, 0x80 + r % 64]
  else if r < 0x10000 then [0xE0 + r / 4096, 0x80 + r / 64 % 64, 0x80 + r % 64]
  else [0xF0 + r / 262144, 0x80 + r / 4096 % 64, 0x80 + r / 64 % 64, 0x80 + r % 64]

/-- The bytes of a string literal of the source: its UTF-8 encoding. -/
def str (s : String) : GoString :=
  s.data.flatMap (fun c => utf8EncodeRune c.toNat)

/-! ## Constants of main.go -/

def corsAllowedDomain : GoString := str "http://localhost:4040"
def authHeader : String := "Authorization"
def ctxTokenKey : String := "Auth0Token"

def yamlCfgFileName : String := "env.yaml"
def domainYamlKey : String := "auth0-domain"
def audienceYamlKey : String := "auth0-audience"

/-! ## net/http: headers -/

/-- The type `http.Header`, a `map[string][]string`, as an association list. The keys are
canonical MIME header names; every name this program uses is already canonical. -/
abbrev Header := List (String × List GoString)

/-- The values stored under `key` (`h[key]`); the empty list when the key is absent. -/
def Header.Values (h : Header) (key : String) : List GoString :=
  match h.find? (fun e => decide (e.1 = key)) with
  | some e => e.2
  | none => []

/-- Whether `key` is present in the map (`_, ok := h[key]`). -/
def Header.Has (h : Header) (key : String) : Bool :=
  (h.find? (fun e => decide (e.1 = key))).isSome

/-- The method `Header.Get`: the first value stored under `key`, or the empty string. -/
def Header.Get (h : Header) (key : String) : GoString :=
  match h.Values key with
  | [] => []
  | v :: _ => v

/-- The method `Header.Del`: remove `key` from the map. -/
def Header.Del (h : Header) (key : String) : Header :=
  h.filter (fun e => !decide (e.1 = key))

/-- The method `Header.Set`: replace whatever is stored under `key` by the single `value`. -/
def Header.Set (h : Header) (key : String) (value : GoString) : Header :=
  h.Del key ++ [(key, [value])]

/-- The method `Header.Add`: append `value` to the values stored under `key`. -/
def Header.Add (h : Header) (key : String) (value : GoString) : Header :=
  h.Del key ++ [(key, h.Values key ++ [value])]

/-! ## net/http: the response writer -/

/-- The state of an `http.ResponseWriter`.

* `handlerHeader` is the map returned by `Header()`, which the handler mutates;
* `wroteHeader` and `status` record the first call of `WriteHeader`;
* `sentHeader` is the snapshot of `handlerHeader` taken by that call: the headers of the
  response (changes made to the map afterwards are not sent);
* `body` is what has been written. -/
structure ResponseWriter where
  handlerHeader : Header := []
  wroteHeader : Bool := false
  status : Nat := 0
  sentHeader : Header := []
  body : GoString := []

def StatusOK : Nat := 200
def StatusNoContent : Nat := 204
def StatusMovedPermanently : Nat := 301
def StatusBadRequest : Nat := 400
def StatusUnauthorized : Nat := 401
def StatusNotFound : Nat := 404

/-- The method `WriteHeader`: the first call fixes the status and the headers of the
response; a later call is superfluous and changes nothing. -/
def ResponseWriter.WriteHeader (w : ResponseWriter) (code : Nat) : ResponseWriter :=
  if w.wroteHeader then w
  else { w with wroteHeader := true, status := code, sentHeader := w.handlerHeader }

/-- Statuses whose response carries a body (`bodyAllowedForStatus`). -/
def bodyAllowedForStatus (status : Nat) : Bool :=
  if 100 ≤ status ∧ status ≤ 199 then false
  else if status = 204 then false
  else if status = 304 then false
  else true

def ErrBodyNotAllowed : String :=
  "http: request method or response status code does not allow body"

/-- The method `Write`: writes the header with status 200 when it has not been written,
then appends the data to the body. Writing no data succeeds; writing data under a status
that allows no body fails with `ErrBodyNotAllowed`. The second component is the error. -/
def ResponseWriter.Write (w : ResponseWriter) (data : GoString) :
    ResponseWriter × Option String :=
  let w1 := if w.wroteHeader then w else w.WriteHeader StatusOK
  if data = [] then (w1, none)
  else if bodyAllowedForStatus w1.status then ({ w1 with body := w1.body ++ data }, none)
  else (w1, some ErrBodyNotAllowed)

/-! ## Execution state, requests and handlers -/

/-- What a handler can change: the response writer, standard output (`fmt.Printf`), the
log (`log.Print`), and `ext`, which stands for everything else a downstream handler may
touch. -/
structure Exec (σ : Type) where
  rw : ResponseWriter
  stdout : List GoString
  logged : List String
  ext : σ

/-- The fields of `http.Request` this program and its router read. The context is the chain
of bindings made by `context.WithValue`, most recent first; `τ` is the type of `jwt.Token`. -/
structure Request (τ : Type) where
  Method : String
  Path : String
  RawQuery : String
  RequestURI : String
  ProtoMajor : Nat
  ProtoMinor : Nat
  Header : Header
  ctx : List (String × τ)

/-- The call `context.WithValue(req.Context(), key, val)` followed by `req.WithContext`: a copy
of the request whose context has one more binding. -/
def Request.WithValue {τ : Type} (req : Request τ) (key : String) (val : τ) : Request τ :=
  { req with ctx := (key, val) :: req.ctx }

/-- An `http.Handler`: `ServeHTTP(rw, req)` as a transformer of the execution state. -/
abbrev Handler (τ σ : Type) := Exec σ → Request τ → Exec σ

namespace Exec

variable {σ : Type}

/-- The call `rw.Header().Add(key, value)`. -/
def headerAdd (s : Exec σ) (key : String) (value : GoString) : Exec σ :=
  { s with rw := { s.rw with handlerHeader := s.rw.handlerHeader.Add key value } }

/-- The call `rw.Header().Set(key, value)`. -/
def headerSet (s : Exec σ) (key : String) (value : GoString) : Exec σ :=
  { s with rw := { s.rw with handlerHeader := s.rw.handlerHeader.Set key value } }

/-- The call `rw.WriteHeader(code)`. -/
def writeHeader (s : Exec σ) (code : Nat) : Exec σ :=
  { s with rw := s.rw.WriteHeader code }

/-- The call `rw.Write(data)`, with its error. -/
def write (s : Exec σ) (data : GoString) : Exec σ × Option String :=
  ({ s with rw := (s.rw.Write data).1 }, (s.rw.Write data).2)

/-- The calls `log.Print(msg, err)`. -/
def logPrint (s : Exec σ) (msg err : String) : Exec σ :=
  { s with logged := s.logged ++ [msg ++ err] }

/-- The call `fmt.Printf(...)`, given the formatted text. -/
def printf (s : Exec σ) (text : GoString) : Exec σ :=
  { s with stdout := s.stdout ++ [text] }

end Exec

/-! ## unicode/utf8 and encoding/json for the `message` struct -/

/-- The struct `message`. -/
structure message where
  Message : GoString

/-- The rune `utf8.RuneError`, U+FFFD. -/
def RuneError : Nat := 0xFFFD

/-- The function `utf8.DecodeRuneInString`: the first rune of the bytes and its width in
bytes; `(RuneError, 1)` when the bytes do not start with a well-formed encoding (a wrong
first byte, a missing or wrong continuation byte, an overlong form, a surrogate, a value
above U+10FFFF), `(RuneError, 0)` when there are no bytes. -/
def decodeRune : GoString → Nat × Nat
  | [] => (RuneError, 0)
  | s0 :: t =>
    if s0 < 0x80 then (s0, 1)
    else if 0xC2 ≤ s0 ∧ s0 ≤ 0xDF then
      match t with
      | s1 :: _ =>
        if 0x80 ≤ s1 ∧ s1 ≤ 0xBF then ((s0 - 0xC0) * 64 + (s1 - 0x80), 2)
        else (RuneError, 1)
      | _ => (RuneError, 1)
    else if 0xE0 ≤ s0 ∧ s0 ≤ 0xEF then
      match t with
      | s1 :: s2 :: _ =>
        if (if s0 = 0xE0 then 0xA0 else 0x80) ≤ s1 ∧ s1 ≤ (if s0 = 0xED then 0x9F else 0xBF) then
          if 0x80 ≤ s2 ∧ s2 ≤ 0xBF then
            ((s0 - 0xE0) * 4096 + (s1 - 0x80) * 64 + (s2 - 0x80), 3)
          else (RuneError, 1)
        else (RuneError, 1)
      | _ => (RuneError, 1)
    else if 0xF0 ≤ s0 ∧ s0 ≤ 0xF4 then
      match t with
      | s1 :: s2 :: s3 :: _ =>
        if (if s0 = 0xF0 then 0x90 else 0x80) ≤ s1 ∧ s1 ≤ (if s0 = 0xF4 then 0x8F else 0xBF) then
          if 0x80 ≤ s2 ∧ s2 ≤ 0xBF then
            if 0x80 ≤ s3 ∧ s3 ≤ 0xBF then
              ((s0 - 0xF0) * 262144 + (s1 - 0x80) * 4096 + (s2 - 0x80) * 64 + (s3 - 0x80), 4)
            else (RuneError, 1)
          else (RuneError, 1)
        else (RuneError, 1)
      | _ => (RuneError, 1)
    else (RuneError, 1)

/-- The hexadecimal digit of `n`, as `encoding/json` writes it. -/
def hexDigit (n : Nat) : Nat :=
  (str "0123456789abcdef").getD n 48

/-- The table `htmlSafeSet` of `encoding/json`: the bytes below 0x80 that are written as
they are, which is every byte from the space on except the quote (34), the backslash (92),
`<` (60), `>` (62) and `&` (38). -/
def htmlSafe (b : Nat) : Bool :=
  decide (0x20 ≤ b ∧ b < 0x80 ∧ b ≠ 34 ∧ b ≠ 92 ∧ b ≠ 60 ∧ b ≠ 62 ∧ b ≠ 38)

/-- How `encoding/json` writes a byte below 0x80 of a string, with HTML escaping on, as
`json.Marshal` has it. (Newer releases of Go write the short forms for the bytes 8 and 12;
the literal stands for the same text.) -/
def jsonEscapeASCII (b : Nat) : GoString :=
  if htmlSafe b then [b]
  else if b = 92 ∨ b = 34 then [92, b]
  else if b = 10 then str "\\n"
  else if b = 13 then str "\\r"
  else if b = 9 then str "\\t"
  else str "\\u00" ++ [hexDigit (b / 16), hexDigit (b % 16)]

/-- The loop of `encoding/json` over the bytes of a string (`appendString` with HTML
escaping on). At a byte below 0x80 it writes `jsonEscapeASCII`; otherwise it decodes a rune:
a byte that starts no well-formed encoding is written as `\ufffd` and the loop goes on
with the next byte; U+2028 and U+2029 are written as escapes; any other rune is written as
it is. `skip` counts the bytes of the rune decoded last that are still ahead, and `copy`
says whether they are written (the rune stands as it is) or not (it was escaped). -/
def jsonEscape : Nat → Bool → GoString → GoString
  | _, _, [] => []
  | skip + 1, copy, b :: rest => (if copy then [b] else []) ++ jsonEscape skip copy rest
  | 0, _, b :: rest =>
    if b < 0x80 then jsonEscapeASCII b ++ jsonEscape 0 true rest
    else if (decodeRune (b :: rest)).1 = RuneError ∧ (decodeRune (b :: rest)).2 = 1 then
      str "\\ufffd" ++ jsonEscape 0 true rest
    else if (decodeRune (b :: rest)).1 = 0x2028 ∨ (decodeRune (b :: rest)).1 = 0x2029 then
      str "\\u202" ++ [hexDigit ((decodeRune (b :: rest)).1 % 16)] ++
        jsonEscape ((decodeRune (b :: rest)).2 - 1) false rest
    else b :: jsonEscape ((decodeRune (b :: rest)).2 - 1) true rest

/-- A Go string as a JSON string literal. -/
def jsonString (s : GoString) : GoString :=
  [34] ++ jsonEscape 0 true s ++ [34]

/-- The call `json.Marshal(data)` for a `*message`: an object with the one field
`"message"`. Encoding a struct with one string field cannot fail. -/
def jsonMarshal (data : message) : Except String GoString :=
  .ok (str "\x7b\"message\":" ++ jsonString data.Message ++ str "\x7d")

/-! ## main.go: handlers and middleware -/

def publicMessage : message :=
  ⟨str "The API doesn't require an access token to share this message."⟩
def protectedMessage : message :=
  ⟨str "The API successfully validated your access token."⟩
def adminMessage : message :=
  ⟨str "The API successfully recognized you as an admin."⟩

/-- The function `sendMessage`. -/
def sendMessage {σ : Type} (s : Exec σ) (data : message) : Exec σ :=
  let s1 := s.headerAdd "Content-Type" (str "application/json")
  match jsonMarshal data with
  | .error err => s1.logPrint "json conversion error" err
  | .ok bytes =>
    match s1.write bytes with
    | (s2, some err) => s2.logPrint "http response write error" err
    | (s2, none) => s2

def publicApiHandler {τ σ : Type} : Handler τ σ := fun s _ => sendMessage s publicMessage
def protectedApiHandler {τ σ : Type} : Handler τ σ := fun s _ => sendMessage s protectedMessage
def adminApiHandler {τ σ : Type} : Handler τ σ := fun s _ => sendMessage s adminMessage

/-- The function `handleCORS`. -/
def handleCORS {τ σ : Type} (next : Handler τ σ) : Handler τ σ := fun s req =>
  let s1 := s.headerAdd "Access-Control-Allow-Origin" corsAllowedDomain
  if req.Method ≠ "OPTIONS" then next s1 req
  else
    let s2 := s1.headerAdd "Access-Control-Allow-Headers" (str "Authorization")
    let s3 := s2.writeHeader StatusNoContent
    match s3.write [] with
    | (s4, some err) => s4.logPrint "http response (options) write error" err
    | (s4, none) => s4

/-- The call `strings.Split(s, sep)` for a separator of one byte: one more part than there
are separators in `s`. -/
def stringsSplit (sep : Nat) : GoString → List GoString
  | [] => [[]]
  | c :: cs =>
    if c = sep then [] :: stringsSplit sep cs
    else
      match stringsSplit sep cs with
      | [] => [[c]]
      | p :: ps => (c :: p) :: ps

/-- The byte of the space, the separator `" "` of `extractToken`. -/
def spaceByte : Nat := 32

/-- The package-level variables `auth0Audience`, `auth0Domain` and `tenantKeys`, with their
zero values; `κ` is the type of the keys a `jwk.Set` holds, and `none` is the nil set. -/
structure Globals (κ : Type) where
  auth0Audience : String := ""
  auth0Domain : String := ""
  tenantKeys : Option κ := none

/-- The signature of `jwt.Parse(candidate, jwt.WithKeySet(keys), jwt.WithValidate(true),
jwt.WithAudience(audience))`: a token, or an error with its text. The candidate and the text
of the error are Go strings; the audience is the configured one. -/
abbrev JwtParse (κ τ : Type) := GoString → Option κ → String → Except GoString τ

/-- The function `extractToken`. -/
def extractToken {κ τ : Type} (jwtParse : JwtParse κ τ) (g : Globals κ) (req : Request τ) :
    Except GoString τ :=
  let authorization := req.Header.Get authHeader
  if authorization = [] then .error (str "authorization header missing")
  else
    let bearerAndToken := stringsSplit spaceByte authorization
    if bearerAndToken.length < 2 then
      .error (str "malformed authorization header: " ++ authorization)
    else
      match jwtParse (bearerAndToken.getD 1 []) g.tenantKeys g.auth0Audience with
      | .error err => .error err
      | .ok token => .ok token

/-- The function `validateToken`. -/
def validateToken {κ τ σ : Type} (jwtParse : JwtParse κ τ) (g : Globals κ)
    (next : Handler τ σ) : Handler τ σ := fun s req =>
  match extractToken jwtParse g req with
  | .error err =>
    let s1 := s.printf (str "failed to parse payload: " ++ err ++ str "\n")
    let s2 := s1.writeHeader StatusUnauthorized
    sendMessage s2 ⟨err⟩
  | .ok token => next s (req.WithValue ctxTokenKey token)

/-! ## net/http: the router built in `main` -/

/-- Functions of `net/http` that are taken as given: the path canonicaliser `cleanPath`, and,
for a redirect to the path `p` with raw query `q`, the value of the `Location` header and the
short HTML body. -/
structure NetHTTP where
  cleanPath : String → String
  redirectLocation : String → String → String
  redirectBody : String → String → String

/-- The function `http.Error`: it sets the two headers of a plain-text reply, writes the
status and prints the text. -/
def httpError {τ σ : Type} (error : String) (code : Nat) : Handler τ σ := fun s _ =>
  let s1 := s.headerSet "Content-Type" (str "text/plain; charset=utf-8")
  let s2 := s1.headerSet "X-Content-Type-Options" (str "nosniff")
  let s3 := s2.writeHeader code
  (s3.write (str (error ++ "\n"))).1

/-- The handler `http.NotFoundHandler()`. -/
def NotFoundHandler {τ σ : Type} : Handler τ σ := httpError "404 page not found" StatusNotFound

/-- The handler `http.RedirectHandler(u.String(), code)` for the URL `u` that has the path
`path` and the raw query `query`. -/
def RedirectHandler {τ σ : Type} (lib : NetHTTP) (path query : String) (code : Nat) :
    Handler τ σ := fun s req =>
  let hadCT := s.rw.handlerHeader.Has "Content-Type"
  let s1 := s.headerSet "Location" (str (lib.redirectLocation path query))
  let s2 := if !hadCT && (req.Method = "GET" || req.Method = "HEAD") then
      s1.headerSet "Content-Type" (str "text/html; charset=utf-8")
    else s1
  let s3 := s2.writeHeader code
  if !hadCT && req.Method = "GET" then
    (s3.write (str (lib.redirectBody path query ++ "\n"))).1
  else s3

/-- The handler `ServeMux` selects for a path, with the four patterns registered in `main`:
the three message routes match their exact path, and `"/"` takes every other path. -/
def muxHandler {κ τ σ : Type} (jwtParse : JwtParse κ τ) (g : Globals κ) (path : String) :
    Handler τ σ :=
  if path = "/api/messages/public" then publicApiHandler
  else if path = "/api/messages/protected" then validateToken jwtParse g protectedApiHandler
  else if path = "/api/messages/admin" then validateToken jwtParse g adminApiHandler
  else NotFoundHandler

/-- The value `router` of `main`, as `ServeMux.ServeHTTP` runs it: the request URI `*` is
answered with status 400; a request other than CONNECT whose path is not in canonical form is
redirected to the canonical path; every other request goes to the handler of its path. -/
def router {κ τ σ : Type} (lib : NetHTTP) (jwtParse : JwtParse κ τ) (g : Globals κ) :
    Handler τ σ := fun s req =>
  if req.RequestURI = "*" then
    let s1 := if req.ProtoMajor > 1 || (req.ProtoMajor = 1 && req.ProtoMinor ≥ 1) then
        s.headerSet "Connection" (str "close")
      else s
    s1.writeHeader StatusBadRequest
  else if req.Method = "CONNECT" then muxHandler jwtParse g req.Path s req
  else if lib.cleanPath req.Path ≠ req.Path then
    RedirectHandler lib (lib.cleanPath req.Path) req.RawQuery StatusMovedPermanently s req
  else muxHandler jwtParse g req.Path s req

/-- The value `routerWithCORS` of `main`, the handler of the server. -/
def routerWithCORS {κ τ σ : Type} (lib : NetHTTP) (jwtParse : JwtParse κ τ) (g : Globals κ) :
    Handler τ σ :=
  handleCORS (router lib jwtParse g)

/-- The response a client receives. -/
structure Response where
  status : Nat
  header : Header
  body : GoString

/-- An execution state with a new response writer. -/
def newExec {σ : Type} (ext : σ) : Exec σ := ⟨{}, [], [], ext⟩

/-- One request as the server runs it: the handler gets a new response writer, and when it
returns without having written the header the server writes it with status 200. -/
def serve {τ σ : Type} (h : Handler τ σ) (ext : σ) (req : Request τ) : Response :=
  let s := h (newExec ext) req
  let w := if s.rw.wroteHeader then s.rw else s.rw.WriteHeader StatusOK
  ⟨w.status, w.sentHeader, w.body⟩

/-! ## config.go -/

/-- How the process ends: the exit status and what was written to standard error. -/
structure Exit where
  code : Nat
  stderr : List String

/-- What `loadEnvYAML` finds at `env.yaml` in the working directory: no such file, a file
that cannot be read, contents that `yaml.Unmarshal` rejects, or the decoded
`map[string]string`. -/
inductive YamlFile where
  | absent
  | unreadable (err : String)
  | malformed (err : String)
  | mapping (cfg : List (String × String))

/-- The surroundings of the process that `config.go` reads: the result of `os.Getwd`, the
YAML file, the environment variables, `os.Args[0]` and `os.Args[1:]`, and the text that
`flag.PrintDefaults` prints. -/
structure Process where
  getwd : Except String String
  yaml : YamlFile
  environ : List (String × String)
  prog : String
  args : List String
  defaults : String

/-- The call `os.Getenv(key)`: the empty string when the variable is not set. -/
def Process.Getenv (p : Process) (key : String) : String :=
  (p.environ.lookup key).getD ""

/-- The calls `log.Fatal` and `log.Fatalf`: log the text and exit with status 1. -/
def logFatal {α : Type} (text : String) : Except Exit α :=
  .error ⟨1, [text]⟩

/-- The function `exitWithError`. -/
def exitWithError {α : Type} (p : Process) (message : String) : Except Exit α :=
  .error ⟨1, [message ++ "\n\n", "Usage of " ++ p.prog ++ ":\n", p.defaults]⟩

/-- The function `loadEnvYAML`. -/
def loadEnvYAML {κ : Type} (p : Process) (g : Globals κ) : Except Exit (Globals κ) :=
  match p.getwd with
  | .error err => logFatal err
  | .ok _ =>
    match p.yaml with
    | .absent => .ok g
    | .unreadable err => logFatal ("error reading " ++ yamlCfgFileName ++ ": " ++ err ++ " ")
    | .malformed err => logFatal ("yaml unmarshal error: " ++ err)
    | .mapping cfg =>
      let g1 := match cfg.lookup domainYamlKey with
        | some val => { g with auth0Domain := val }
        | none => g
      let g2 := match cfg.lookup audienceYamlKey with
        | some val => { g1 with auth0Audience := val }
        | none => g1
      .ok g2

/-- The scan of `parseOne` for the first `=` of a flag name after its first character: the
name part, and the value when there is an `=`. -/
def splitAtEq : List Char → List Char × Option (List Char)
  | [] => ([], none)
  | c :: cs =>
    if c = '=' then ([], some cs)
    else ((c :: (splitAtEq cs).1), (splitAtEq cs).2)

/-- The failure of `flag.Parse` under `flag.ExitOnError`: the error and the usage are printed
and the process exits with status 2. -/
def flagFail {α : Type} (p : Process) (err : String) : Except Exit α :=
  .error ⟨2, [err ++ "\n", "Usage of " ++ p.prog ++ ":\n", p.defaults]⟩

/-- The call `flag.Parse()` with the two string flags `a` and `d` defined: the calls of
`Value.Set` it makes, as pairs of flag name and value, in order. Parsing stops at the first
argument that is not a flag and at `--`; `-h` and `-help` print the usage and exit with
status 0. -/
def flagParse (p : Process) : List String → Except Exit (List (String × String))
  | [] => .ok []
  | s :: rest =>
    match s.data with
    | c0 :: c1 :: cs =>
      if c0 ≠ '-' then .ok []
      else if c1 = '-' ∧ cs = [] then .ok []
      else
        match (if c1 = '-' then cs else c1 :: cs) with
        | [] => flagFail p ("bad flag syntax: " ++ s)
        | n0 :: ns =>
          if n0 = '-' ∨ n0 = '=' then flagFail p ("bad flag syntax: " ++ s)
          else
            let name := String.mk (n0 :: (splitAtEq ns).1)
            if name = "a" ∨ name = "d" then
              match (splitAtEq ns).2 with
              | some value =>
                match flagParse p rest with
                | .error e => .error e
                | .ok sets => .ok ((name, String.mk value) :: sets)
              | none =>
                match rest with
                | [] => flagFail p ("flag needs an argument: -" ++ name)
                | value :: rest1 =>
                  match flagParse p rest1 with
                  | .error e => .error e
                  | .ok sets => .ok ((name, value) :: sets)
            else if name = "help" ∨ name = "h" then
              .error ⟨0, ["Usage of " ++ p.prog ++ ":\n", p.defaults]⟩
            else flagFail p ("flag provided but not defined: -" ++ name)
    | _ => .ok []

/-- The variable bound by `flag.StringVar(&v, name, dflt, _)` after the calls `sets` of
`Value.Set`: it starts at the default and every call for `name` overwrites it. -/
def flagVar (sets : List (String × String)) (name dflt : String) : String :=
  sets.foldl (fun v e => if e.1 = name then e.2 else v) dflt

/-- The function `parseArgs`. -/
def parseArgs {κ : Type} (p : Process) (g : Globals κ) : Except Exit (Globals κ) :=
  match flagParse p p.args with
  | .error e => .error e
  | .ok sets =>
    let argAudience := flagVar sets "a" (p.Getenv "AUTH0_AUDIENCE")
    let argDomain := flagVar sets "d" (p.Getenv "AUTH0_DOMAIN")
    let g1 := if argAudience ≠ "" then { g with auth0Audience := argAudience } else g
    let g2 := if argDomain ≠ "" then { g1 with auth0Domain := argDomain } else g1
    .ok g2

/-- The function `initConfig`. -/
def initConfig {κ : Type} (p : Process) (g : Globals κ) : Except Exit (Globals κ) :=
  match loadEnvYAML p g with
  | .error e => .error e
  | .ok g1 =>
    match parseArgs p g1 with
    | .error e => .error e
    | .ok g2 =>
      if g2.auth0Audience = "" then
        exitWithError p "Auth0 API identifier (as audience) missing"
      else if g2.auth0Domain = "" then
        exitWithError p "Auth0 API tenant domain missing"
      else .ok g2

/-- The signature of `jwk.Fetch(ctx, url)`: a key set, or an error with its text. -/
abbrev JwkFetch (κ : Type) := String → Except String κ

/-- The function `fetchTenantKeys`. -/
def fetchTenantKeys {κ : Type} (fetch : JwkFetch κ) (g : Globals κ) :
    Except Exit (Globals κ) :=
  match fetch ("https://" ++ g.auth0Domain ++ "/.well-known/jwks.json") with
  | .error err => logFatal ("failed to parse tenant json web keys: " ++ err ++ "\n")
  | .ok set => .ok { g with tenantKeys := some set }

/-- The function `main` up to the start of the server: the globals the handlers will read,
or the exit of the process. The server then runs `routerWithCORS` with these globals. -/
def mainStartup {κ : Type} (fetch : JwkFetch κ) (p : Process) : Except Exit (Globals κ) :=
  match initConfig p {} with
  | .error e => .error e
  | .ok g => fetchTenantKeys fetch g

/-! ## Definitions used to state the properties -/

/-- The value of a hexadecimal digit, given as a byte. -/
def hexValue (b : Nat) : Option Nat :=
  if 48 ≤ b ∧ b ≤ 57 then some (b - 48)
  else if 97 ≤ b ∧ b ≤ 102 then some (b - 87)
  else if 65 ≤ b ∧ b ≤ 70 then some (b - 55)
  else none

/-- The byte a two-character escape of JSON stands for. -/
def simpleEscape (e : Nat) : Option Nat :=
  if e = 34 then some 34
  else if e = 92 then some 92
  else if e = 47 then some 47
  else if e = 110 then some 10
  else if e = 114 then some 13
  else if e = 116 then some 9
  else if e = 98 then some 8
  else if e = 102 then some 12
  else none

/-- The text, in UTF-8, that the inside of a JSON string literal stands for (RFC 8259): an
escape `\uXXXX` stands for the code point `XXXX` (an escape of half a surrogate pair stands
for nothing here), a two-character escape for its byte, every other byte for itself. -/
def jsonUnescape : GoString → Option GoString
  | [] => some []
  | b :: rest =>
    if b = 92 then
      match rest with
      | [] => none
      | e :: rest1 =>
        if e = 117 then
          match rest1 with
          | h1 :: h2 :: h3 :: h4 :: rest2 =>
            match hexValue h1, hexValue h2, hexValue h3, hexValue h4, jsonUnescape rest2 with
            | some x, some y, some z, some w, some t =>
              if 0xD800 ≤ ((x * 16 + y) * 16 + z) * 16 + w ∧
                  ((x * 16 + y) * 16 + z) * 16 + w ≤ 0xDFFF then none
              else some (utf8EncodeRune (((x * 16 + y) * 16 + z) * 16 + w) ++ t)
            | _, _, _, _, _ => none
          | _ => none
        else
          match simpleEscape e, jsonUnescape rest1 with
          | some ch, some t => some (ch :: t)
          | _, _ => none
    else if b = 34 then none
    else
      match jsonUnescape rest with
      | some t => some (b :: t)
      | none => none

/-- The text, in UTF-8, that a JSON string literal stands for. -/
def jsonDecodeString (lit : GoString) : Option GoString :=
  match lit with
  | [] => none
  | q :: rest =>
    if q = 34 ∧ rest.getLast? = some 34 then jsonUnescape rest.dropLast
    else none

/-- What the loop of `encoding/json` writes for a scalar value `n` that is encoded well. -/
def escRune (n : Nat) : GoString :=
  if n < 0x80 then jsonEscapeASCII n
  else if n = 0x2028 ∨ n = 0x2029 then str "\\u202" ++ [hexDigit (n % 16)]
  else utf8EncodeRune n

/-- The portion of a header after its first space. -/
def afterFirstSpace (h : GoString) : GoString :=
  (h.dropWhile (fun c => !decide (c = spaceByte))).drop 1

/-- The portion of a header after its first space and before the next one. -/
def tokenCandidate (h : GoString) : GoString :=
  ((h.dropWhile (fun c => !decide (c = spaceByte))).drop 1).takeWhile
    (fun c => !decide (c = spaceByte))

/-- A handler that also records, in a second component of `ext`, every request it is
invoked with. -/
def recordCalls {τ σ : Type} (next : Handler τ σ) : Handler τ (σ × List (Request τ)) :=
  fun s req =>
    let s1 := next ⟨s.rw, s.stdout, s.logged, s.ext.1⟩ req
    ⟨s1.rw, s1.stdout, s1.logged, (s1.ext, s.ext.2 ++ [req])⟩

/-- A request for `path` with the given method and headers, over HTTP/1.1, with an empty
context. -/
def sampleRequest {τ : Type} (method path : String) (header : Header) : Request τ :=
  ⟨method, path, "", path, 1, 1, header, []⟩

/-- A token parser that rejects every candidate and names it in the error. -/
def rejectingParse : JwtParse Unit GoString := fun candidate _ _ => .error candidate

/-- A token parser that accepts every candidate; the token is the candidate. -/
def acceptingParse : JwtParse Unit GoString := fun candidate _ _ => .ok candidate

/-- The headers the response will carry: the snapshot when the header has been written, the
current map when it has not. -/
def ResponseWriter.responseHeader (w : ResponseWriter) : Header :=
  if w.wroteHeader then w.sentHeader else w.handlerHeader

/-- A handler run keeps `Access-Control-Allow-Origin` on the response. -/
def KeepsOrigin {τ σ : Type} (h : Handler τ σ) : Prop :=
  ∀ (s : Exec σ) (req : Request τ), s.rw.wroteHeader = false →
    s.rw.handlerHeader.Values "Access-Control-Allow-Origin" = [corsAllowedDomain] →
    (h s req).rw.responseHeader.Values "Access-Control-Allow-Origin" = [corsAllowedDomain]

/-- The value the command line supplies for the flag `name`, given the calls of `Value.Set`
that parsing made: that of the last call for `name`, or `none` when the flag was not
supplied. -/
def supplied : List (String × String) → String → Option String
  | [], _ => none
  | e :: es, name =>
    match supplied es name with
    | some v => some v
    | none => if e.1 = name then some e.2 else none

/-- The value the YAML file gives for `key`: the empty string when there is no file or
no such key. -/
def fileValue (y : YamlFile) (key : String) : String :=
  match y with
  | .mapping cfg => (cfg.lookup key).getD ""
  | _ => ""

/-- The precedence as the specification words it: the flag if it was supplied with a
non-empty value; otherwise the environment variable if non-empty; otherwise the file. -/
def precedenceSpec (flag : Option String) (E F : String) : String :=
  match flag with
  | some v => if v ≠ "" then v else if E ≠ "" then E else F
  | none => if E ≠ "" then E else F

/-- The precedence of the code: a supplied flag replaces the environment variable, also when
its value is empty; the result of the two, if non-empty, replaces the file. -/
def precedenceCode (flag : Option String) (E F : String) : String :=
  match flag with
  | some v => if v ≠ "" then v else F
  | none => if E ≠ "" then E else F

/-- A process with `env.yaml` giving the audience `file` and the domain `tenant.example.com`,
`AUTH0_AUDIENCE=env` in the environment, and the command line `-a ""`. -/
def emptyFlagProcess : Process :=
  { getwd := .ok "/srv", yaml := .mapping [("auth0-audience", "file"),
      ("auth0-domain", "tenant.example.com")],
    environ := [("AUTH0_AUDIENCE", "env")], prog := "api", args := ["-a", ""],
    defaults := "" }

/-- A process without `env.yaml` and without environment variables, started with the
command line `-a https://example/api`: no issuer domain is configured. -/
def noDomainProcess : Process :=
  { getwd := .ok "/srv", yaml := .absent, environ := [], prog := "api",
    args := ["-a", "https://example/api"], defaults := "" }

/-- A process configured by the command line `-a https://example/api -d tenant.example.com`. -/
def flagsProcess : Process :=
  { getwd := .ok "/srv", yaml := .absent, environ := [], prog := "api",
    args := ["-a", "https://example/api", "-d", "tenant.example.com"], defaults := "" }

/-! ## Lemmas -/

theorem char_scalar (c : Char) : c.toNat < 0xD800 ∨ (0xDFFF < c.toNat ∧ c.toNat < 0x110000) := by
  have h := c.valid
  simpa [UInt32.isValidChar, Nat.isValidChar, Char.toNat] using h

theorem decodeRune_two (s0 s1 : Nat) (r : GoString) (h0 : 0xC2 ≤ s0 ∧ s0 ≤ 0xDF)
    (h1 : 0x80 ≤ s1 ∧ s1 ≤ 0xBF) :
    decodeRune (s0 :: s1 :: r) = ((s0 - 0xC0) * 64 + (s1 - 0x80), 2) := by
  unfold decodeRune
  dsimp only
  rw [if_neg (by omega), if_pos h0]
  rw [if_pos h1]

theorem decodeRune_three (s0 s1 s2 : Nat) (r : GoString) (h0 : 0xE0 ≤ s0 ∧ s0 ≤ 0xEF)
    (h1 : (if s0 = 0xE0 then 0xA0 else 0x80) ≤ s1 ∧ s1 ≤ (if s0 = 0xED then 0x9F else 0xBF))
    (h2 : 0x80 ≤ s2 ∧ s2 ≤ 0xBF) :
    decodeRune (s0 :: s1 :: s2 :: r) =
      ((s0 - 0xE0) * 4096 + (s1 - 0x80) * 64 + (s2 - 0x80), 3) := by
  unfold decodeRune
  dsimp only
  rw [if_neg (by omega), if_neg (by omega), if_pos h0]
  rw [if_pos h1, if_pos h2]

theorem decodeRune_four (s0 s1 s2 s3 : Nat) (r : GoString) (h0 : 0xF0 ≤ s0 ∧ s0 ≤ 0xF4)
    (h1 : (if s0 = 0xF0 then 0x90 else 0x80) ≤ s1 ∧ s1 ≤ (if s0 = 0xF4 then 0x8F else 0xBF))
    (h2 : 0x80 ≤ s2 ∧ s2 ≤ 0xBF) (h3 : 0x80 ≤ s3 ∧ s3 ≤ 0xBF) :
    decodeRune (s0 :: s1 :: s2 :: s3 :: r) =
      ((s0 - 0xF0) * 262144 + (s1 - 0x80) * 4096 + (s2 - 0x80) * 64 + (s3 - 0x80), 4) := by
  unfold decodeRune
  dsimp only
  rw [if_neg (by omega), if_neg (by omega), if_neg (by omega), if_pos h0]
  rw [if_pos h1, if_pos h2, if_pos h3]

theorem decodeRune_encode (n : Nat) (r : GoString) (h80 : 0x80 ≤ n)
    (hv : n < 0xD800 ∨ (0xDFFF < n ∧ n < 0x110000)) :
    decodeRune (utf8EncodeRune n ++ r) = (n, (utf8EncodeRune n).length) := by
  unfold utf8EncodeRune
  rw [if_neg (by omega)]
  by_cases h2 : n < 0x800
  · rw [if_pos h2, List.cons_append, List.cons_append, List.nil_append,
      decodeRune_two _ _ _ (by omega) (by omega)]
    refine Prod.ext ?_ rfl
    show (0xC0 + n / 64 - 0xC0) * 64 + (0x80 + n % 64 - 0x80) = n
    omega
  · rw [if_neg h2]
    by_cases h3 : n < 0x10000
    · rw [if_pos h3, List.cons_append, List.cons_append, List.cons_append, List.nil_append,
        decodeRune_three _ _ _ _ (by omega) (by split_ifs <;> omega) (by omega)]
      refine Prod.ext ?_ rfl
      show (0xE0 + n / 4096 - 0xE0) * 4096 + (0x80 + n / 64 % 64 - 0x80) * 64
        + (0x80 + n % 64 - 0x80) = n
      omega
    · rw [if_neg h3, List.cons_append, List.cons_append, List.cons_append, List.cons_append,
        List.nil_append,
        decodeRune_four _ _ _ _ _ (by omega) (by split_ifs <;> omega) (by omega) (by omega)]
      refine Prod.ext ?_ rfl
      show (0xF0 + n / 262144 - 0xF0) * 262144 + (0x80 + n / 4096 % 64 - 0x80) * 4096
        + (0x80 + n / 64 % 64 - 0x80) * 64 + (0x80 + n % 64 - 0x80) = n
      omega

theorem jsonEscape_nil (k : Nat) (cp : Bool) : jsonEscape k cp [] = [] := by
  cases k <;> rfl

theorem jsonEscape_zero (cp : Bool) (r : GoString) : jsonEscape 0 cp r = jsonEscape 0 true r := by
  cases r with
  | nil => rw [jsonEscape_nil, jsonEscape_nil]
  | cons b rest => rw [jsonEscape.eq_def, jsonEscape.eq_def 0 true]

theorem jsonEscape_skip (t r : GoString) (cp : Bool) :
    jsonEscape t.length cp (t ++ r) = (if cp then t else []) ++ jsonEscape 0 true r := by
  induction t with
  | nil => simpa using jsonEscape_zero cp r
  | cons b bs ih =>
    rw [List.length_cons, List.cons_append, jsonEscape.eq_def]
    simp only [ih]
    cases cp <;> simp

theorem jsonEscape_ascii (b : Nat) (r : GoString) (hb : b < 0x80) :
    jsonEscape 0 true (b :: r) = jsonEscapeASCII b ++ jsonEscape 0 true r := by
  rw [jsonEscape.eq_def]
  simp only [hb, if_true]

theorem jsonEscape_rune (b : Nat) (tl r : GoString) (n : Nat) (hb : ¬ b < 0x80)
    (hd : decodeRune (b :: (tl ++ r)) = (n, tl.length + 1)) (htl : tl ≠ []) :
    jsonEscape 0 true (b :: (tl ++ r)) =
      (if n = 0x2028 ∨ n = 0x2029 then str "\\u202" ++ [hexDigit (n % 16)] else b :: tl)
        ++ jsonEscape 0 true r := by
  have hlen : tl.length + 1 ≠ 1 := by
    cases tl with
    | nil => exact absurd rfl htl
    | cons _ _ => simp
  rw [jsonEscape.eq_def]
  simp only [hb, if_false, hd, Nat.add_sub_cancel]
  rw [if_neg (fun h => hlen h.2)]
  by_cases h28 : n = 0x2028 ∨ n = 0x2029
  · rw [if_pos h28, if_pos h28, jsonEscape_skip]
    simp
  · rw [if_neg h28, if_neg h28, jsonEscape_skip]
    simp

theorem utf8EncodeRune_high (n : Nat) (h80 : 0x80 ≤ n) :
    ∃ b tl, utf8EncodeRune n = b :: tl ∧ tl ≠ [] ∧ ¬ b < 0x80 ∧
      ∀ x ∈ utf8EncodeRune n, x ≠ 92 ∧ x ≠ 34 := by
  unfold utf8EncodeRune
  rw [if_neg (by omega)]
  split_ifs
  · refine ⟨_, _, rfl, by simp, by omega, ?_⟩
    intro x hx
    simp only [List.mem_cons, List.mem_nil_iff, or_false] at hx
    rcases hx with h | h <;> omega
  · refine ⟨_, _, rfl, by simp, by omega, ?_⟩
    intro x hx
    simp only [List.mem_cons, List.mem_nil_iff, or_false] at hx
    rcases hx with h | h | h <;> omega
  · refine ⟨_, _, rfl, by simp, by omega, ?_⟩
    intro x hx
    simp only [List.mem_cons, List.mem_nil_iff, or_false] at hx
    rcases hx with h | h | h | h <;> omega

/-- The loop of the encoder on the encoding of one scalar value. -/
theorem jsonEscape_encode (n : Nat) (r : GoString)
    (hv : n < 0xD800 ∨ (0xDFFF < n ∧ n < 0x110000)) :
    jsonEscape 0 true (utf8EncodeRune n ++ r) = escRune n ++ jsonEscape 0 true r := by
  unfold escRune
  by_cases h80 : n < 0x80
  · rw [if_pos h80]
    have : utf8EncodeRune n = [n] := by unfold utf8EncodeRune; rw [if_pos h80]
    rw [this]
    exact jsonEscape_ascii n r h80
  · rw [if_neg h80]
    have hd := decodeRune_encode n r (by omega) hv
    obtain ⟨b, tl, he, htl, hb, _⟩ := utf8EncodeRune_high n (by omega)
    rw [he] at hd ⊢
    rw [List.cons_append] at hd ⊢
    rw [List.length_cons] at hd
    exact jsonEscape_rune b tl r n hb hd htl

theorem jsonUnescape_plain (b : Nat) (tl : GoString) (h1 : b ≠ 92) (h2 : b ≠ 34) :
    jsonUnescape (b :: tl) = (jsonUnescape tl).map (fun t => b :: t) := by
  rw [jsonUnescape.eq_def]
  simp only [h1, h2, if_false]
  cases jsonUnescape tl <;> rfl

theorem jsonUnescape_plain_list (l tl : GoString) (h : ∀ x ∈ l, x ≠ 92 ∧ x ≠ 34) :
    jsonUnescape (l ++ tl) = (jsonUnescape tl).map (fun t => l ++ t) := by
  induction l with
  | nil => simp
  | cons b bs ih =>
    rw [List.cons_append, jsonUnescape_plain b _ (h b (by simp)).1 (h b (by simp)).2,
      ih (fun x hx => h x (by simp [hx]))]
    cases jsonUnescape tl <;> rfl

theorem jsonUnescape_simple (e : Nat) (tl : GoString) (he : e ≠ 117) :
    jsonUnescape (92 :: e :: tl) =
      match simpleEscape e, jsonUnescape tl with
      | some ch, some t => some (ch :: t)
      | _, _ => none := by
  rw [jsonUnescape.eq_def]
  simp [he]

theorem jsonUnescape_hex (a b c d : Nat) (tl : GoString) :
    jsonUnescape (92 :: 117 :: a :: b :: c :: d :: tl) =
      match hexValue a, hexValue b, hexValue c, hexValue d, jsonUnescape tl with
      | some x, some y, some z, some w, some t =>
        if 0xD800 ≤ ((x * 16 + y) * 16 + z) * 16 + w ∧
            ((x * 16 + y) * 16 + z) * 16 + w ≤ 0xDFFF then none
        else some (utf8EncodeRune (((x * 16 + y) * 16 + z) * 16 + w) ++ t)
      | _, _, _, _, _ => none := by
  rw [jsonUnescape.eq_def]
  simp

theorem hexValue_hexDigit : ∀ k : Nat, k < 16 → hexValue (hexDigit k) = some k := by
  decide

/-- The decoder on what the encoder writes for one scalar value. -/
theorem jsonUnescape_escRune (n : Nat) (tl : GoString)
    (hv : n < 0xD800 ∨ (0xDFFF < n ∧ n < 0x110000)) :
    jsonUnescape (escRune n ++ tl) = (jsonUnescape tl).map (fun t => utf8EncodeRune n ++ t) := by
  unfold escRune
  by_cases h80 : n < 0x80
  · rw [if_pos h80]
    have hu : utf8EncodeRune n = [n] := by unfold utf8EncodeRune; rw [if_pos h80]
    rw [hu]
    unfold jsonEscapeASCII
    by_cases hs : htmlSafe n = true
    · rw [if_pos hs]
      have hs2 : 0x20 ≤ n ∧ n < 0x80 ∧ n ≠ 34 ∧ n ≠ 92 ∧ n ≠ 60 ∧ n ≠ 62 ∧ n ≠ 38 := by
        simpa [htmlSafe] using hs
      exact jsonUnescape_plain n tl hs2.2.2.2.1 hs2.2.2.1
    · rw [if_neg hs]
      have hs2 : ¬ (0x20 ≤ n ∧ n < 0x80 ∧ n ≠ 34 ∧ n ≠ 92 ∧ n ≠ 60 ∧ n ≠ 62 ∧ n ≠ 38) := by
        simpa [htmlSafe] using hs
      by_cases hq : n = 92 ∨ n = 34
      · rw [if_pos hq]
        rcases hq with h | h
        · subst h
          show jsonUnescape (92 :: 92 :: tl) = _
          rw [jsonUnescape_simple _ _ (by decide)]
          cases jsonUnescape tl <;> rfl
        · subst h
          show jsonUnescape (92 :: 34 :: tl) = _
          rw [jsonUnescape_simple _ _ (by decide)]
          cases jsonUnescape tl <;> rfl
      · rw [if_neg hq]
        by_cases h10 : n = 10
        · subst h10
          rw [if_pos rfl]
          show jsonUnescape (92 :: 110 :: tl) = _
          rw [jsonUnescape_simple _ _ (by decide)]
          cases jsonUnescape tl <;> rfl
        · rw [if_neg h10]
          by_cases h13 : n = 13
          · subst h13
            rw [if_pos rfl]
            show jsonUnescape (92 :: 114 :: tl) = _
            rw [jsonUnescape_simple _ _ (by decide)]
            cases jsonUnescape tl <;> rfl
          · rw [if_neg h13]
            by_cases h9 : n = 9
            · subst h9
              rw [if_pos rfl]
              show jsonUnescape (92 :: 116 :: tl) = _
              rw [jsonUnescape_simple _ _ (by decide)]
              cases jsonUnescape tl <;> rfl
            · rw [if_neg h9]
              show jsonUnescape (92 :: 117 :: 48 :: 48 :: hexDigit (n / 16) ::
                hexDigit (n % 16) :: tl) = _
              have ha := hexValue_hexDigit (n / 16) (by omega)
              have hb := hexValue_hexDigit (n % 16) (by omega)
              have h0 : hexValue 48 = some 0 := by decide
              rw [jsonUnescape_hex, h0, ha, hb]
              have hn : ((0 * 16 + 0) * 16 + n / 16) * 16 + n % 16 = n := by omega
              cases jsonUnescape tl with
              | none => rfl
              | some t =>
                simp only [hn]
                rw [if_neg (by omega), hu]
                rfl
  · rw [if_neg h80]
    by_cases h28 : n = 0x2028 ∨ n = 0x2029
    · rw [if_pos h28]
      rcases h28 with h | h
      · subst h
        show jsonUnescape (92 :: 117 :: 50 :: 48 :: 50 :: 56 :: tl) = _
        rw [jsonUnescape_hex]
        have h0 : hexValue 48 = some 0 := by decide
        have h2 : hexValue 50 = some 2 := by decide
        have h8 : hexValue 56 = some 8 := by decide
        rw [h0, h2, h8]
        cases jsonUnescape tl <;> rfl
      · subst h
        show jsonUnescape (92 :: 117 :: 50 :: 48 :: 50 :: 57 :: tl) = _
        rw [jsonUnescape_hex]
        have h0 : hexValue 48 = some 0 := by decide
        have h2 : hexValue 50 = some 2 := by decide
        have h9 : hexValue 57 = some 9 := by decide
        rw [h0, h2, h9]
        cases jsonUnescape tl <;> rfl
    · rw [if_neg h28]
      obtain ⟨_, _, _, _, _, hall⟩ := utf8EncodeRune_high n (by omega)
      exact jsonUnescape_plain_list _ tl hall

theorem jsonUnescape_jsonEscape (l : List Char) (tl : GoString) :
    jsonUnescape (jsonEscape 0 true (l.flatMap (fun c => utf8EncodeRune c.toNat)) ++ tl) =
      (jsonUnescape tl).map (fun t => l.flatMap (fun c => utf8EncodeRune c.toNat) ++ t) := by
  induction l with
  | nil =>
    rw [List.flatMap_nil, jsonEscape_nil, List.nil_append]
    cases jsonUnescape tl <;> rfl
  | cons c cs ih =>
    rw [List.flatMap_cons, jsonEscape_encode _ _ (char_scalar c), List.append_assoc,
      jsonUnescape_escRune _ _ (char_scalar c), ih]
    cases jsonUnescape tl <;> simp

/-- The JSON string literal written for a text that is valid UTF-8 stands for that text. -/
theorem jsonDecodeString_jsonString (text : String) :
    jsonDecodeString (jsonString (str text)) = some (str text) := by
  unfold jsonDecodeString jsonString
  simp only [List.cons_append, List.nil_append]
  rw [if_pos (by simp)]
  rw [List.dropLast_concat]
  have h := jsonUnescape_jsonEscape text.data []
  rw [List.append_nil] at h
  unfold str
  rw [h]
  have : jsonUnescape [] = some [] := by rw [jsonUnescape.eq_def]
  rw [this]
  simp

/-- The parts of `stringsSplit`: the bytes before the first separator, then the parts of
what follows it. -/
theorem stringsSplit_eq (sep : Nat) (l : GoString) :
    stringsSplit sep l =
      l.takeWhile (fun c => !decide (c = sep)) ::
        (if sep ∈ l then stringsSplit sep ((l.dropWhile (fun c => !decide (c = sep))).drop 1)
         else []) := by
  induction l with
  | nil => simp [stringsSplit]
  | cons c cs ih =>
    by_cases hc : c = sep
    · subst hc
      simp [stringsSplit]
    · have hne : ¬ sep = c := fun h => hc h.symm
      rw [stringsSplit]
      simp only [hc, if_false]
      rw [ih]
      by_cases hm : sep ∈ cs
      · simp [hc, hne, hm]
      · simp [hc, hne, hm]

theorem stringsSplit_no_space (h : GoString) (hs : spaceByte ∉ h) :
    (stringsSplit spaceByte h).length = 1 := by
  simp [stringsSplit_eq spaceByte h, hs]

theorem stringsSplit_space (h : GoString) (hs : spaceByte ∈ h) :
    2 ≤ (stringsSplit spaceByte h).length ∧
      (stringsSplit spaceByte h).getD 1 [] = tokenCandidate h := by
  unfold tokenCandidate
  rw [stringsSplit_eq spaceByte h]
  simp only [hs, if_true]
  rw [stringsSplit_eq spaceByte ((h.dropWhile (fun c => !decide (c = spaceByte))).drop 1)]
  simp

theorem extractToken_space {κ τ : Type} (jwtParse : JwtParse κ τ) (g : Globals κ)
    (req : Request τ) (hs : spaceByte ∈ req.Header.Get authHeader) :
    extractToken jwtParse g req =
      jwtParse (tokenCandidate (req.Header.Get authHeader)) g.tenantKeys g.auth0Audience := by
  have hne : req.Header.Get authHeader ≠ [] := by
    intro h0
    rw [h0] at hs
    simp at hs
  have h2 := stringsSplit_space _ hs
  unfold extractToken
  simp only [hne, if_false]
  rw [if_neg (by omega), h2.2]
  cases jwtParse (tokenCandidate (req.Header.Get authHeader)) g.tenantKeys g.auth0Audience <;> rfl

theorem Header.find_Del (h : Header) (k k' : String) :
    (h.Del k).find? (fun e => decide (e.1 = k')) =
      if k' = k then none else h.find? (fun e => decide (e.1 = k')) := by
  induction h with
  | nil => simp [Header.Del]
  | cons e es ih =>
    have hstep : Header.Del (e :: es) k = if e.1 = k then Header.Del es k else e :: Header.Del es k := by
      by_cases h1 : e.1 = k <;> simp [Header.Del, List.filter_cons, h1]
    rw [hstep]
    by_cases h1 : e.1 = k
    · rw [if_pos h1, ih]
      by_cases h3 : k' = k
      · simp [h3]
      · have h2 : ¬ e.1 = k' := fun h => h3 (h.symm.trans h1)
        simp [h3, List.find?_cons, h2]
    · rw [if_neg h1, List.find?_cons, List.find?_cons, ih]
      by_cases h2 : e.1 = k'
      · have h3 : ¬ k' = k := fun h => h1 (h2.trans h)
        simp [h2, h3]
      · simp [h2]

theorem Header.Values_Del_append (h : Header) (k k' : String) (vs : List GoString) :
    Header.Values (h.Del k ++ [(k, vs)]) k' = if k' = k then vs else h.Values k' := by
  unfold Header.Values
  rw [List.find?_append, Header.find_Del]
  by_cases hk : k' = k
  · simp [hk]
  · have hk' : ¬ k = k' := fun h => hk h.symm
    simp only [hk, if_false]
    cases List.find? (fun e => decide (e.1 = k')) h <;> simp [hk']

theorem Header.Values_Add (h : Header) (k : String) (v : GoString) (k' : String) :
    (h.Add k v).Values k' = if k' = k then h.Values k ++ [v] else h.Values k' :=
  Header.Values_Del_append h k k' _

theorem Header.Values_Set (h : Header) (k : String) (v : GoString) (k' : String) :
    (h.Set k v).Values k' = if k' = k then [v] else h.Values k' :=
  Header.Values_Del_append h k k' _

theorem jsonString_ne_nil (e : GoString) : jsonString e ≠ [] := by
  simp [jsonString]

/-- The state `sendMessage` leaves when the header has been written with a status that
allows a body. -/
theorem sendMessage_after_header {σ : Type} (s : Exec σ) (m : message)
    (hw : s.rw.wroteHeader = true) (hb : bodyAllowedForStatus s.rw.status = true) :
    sendMessage s m =
      { s with rw := { s.rw with
          handlerHeader := s.rw.handlerHeader.Add "Content-Type" (str "application/json"),
          body := s.rw.body ++ (str "\x7b\"message\":" ++ jsonString m.Message ++ str "\x7d") } } := by
  simp [sendMessage, jsonMarshal, Exec.write, Exec.headerAdd, ResponseWriter.Write, hw, hb,
    jsonString_ne_nil]

/-- The state `sendMessage` leaves when the header has not been written. -/
theorem sendMessage_before_header {σ : Type} (s : Exec σ) (m : message)
    (hw : s.rw.wroteHeader = false) :
    sendMessage s m =
      { s with rw := { s.rw with
          handlerHeader := s.rw.handlerHeader.Add "Content-Type" (str "application/json"),
          wroteHeader := true, status := StatusOK,
          sentHeader := s.rw.handlerHeader.Add "Content-Type" (str "application/json"),
          body := s.rw.body ++ (str "\x7b\"message\":" ++ jsonString m.Message ++ str "\x7d") } } := by
  simp [sendMessage, jsonMarshal, Exec.write, Exec.headerAdd, ResponseWriter.Write,
    ResponseWriter.WriteHeader, hw, jsonString_ne_nil, bodyAllowedForStatus, StatusOK]

/-- The state `validateToken` leaves when `extractToken` fails. -/
theorem validateToken_error_state {κ τ σ : Type} (jwtParse : JwtParse κ τ) (g : Globals κ)
    (next : Handler τ σ) (s : Exec σ) (req : Request τ) (e : GoString)
    (herr : extractToken jwtParse g req = .error e) (hw : s.rw.wroteHeader = false) :
    validateToken jwtParse g next s req =
      { rw := { handlerHeader := s.rw.handlerHeader.Add "Content-Type" (str "application/json"),
                wroteHeader := true, status := StatusUnauthorized,
                sentHeader := s.rw.handlerHeader,
                body := s.rw.body ++ (str "\x7b\"message\":" ++ jsonString e ++ str "\x7d") },
        stdout := s.stdout ++ [str "failed to parse payload: " ++ e ++ str "\n"],
        logged := s.logged, ext := s.ext } := by
  unfold validateToken
  rw [herr]
  simp only
  rw [sendMessage_after_header]
  · simp [Exec.writeHeader, Exec.printf, ResponseWriter.WriteHeader, hw]
  · simp [Exec.writeHeader, Exec.printf, ResponseWriter.WriteHeader, hw]
  · simp [Exec.writeHeader, Exec.printf, ResponseWriter.WriteHeader, hw, StatusUnauthorized,
      bodyAllowedForStatus]

theorem Header.Values_nil (k : String) : Header.Values [] k = [] := rfl

theorem write_responseHeader {σ : Type} (s : Exec σ) (data : GoString) :
    (s.write data).1.rw.responseHeader = s.rw.responseHeader := by
  unfold Exec.write ResponseWriter.Write
  by_cases hw : s.rw.wroteHeader = true
  · simp only [hw, if_true]
    split_ifs <;> simp [ResponseWriter.responseHeader, hw]
  · simp only [hw]
    split_ifs <;> simp [ResponseWriter.responseHeader, hw, ResponseWriter.WriteHeader]

theorem writeHeader_responseHeader {σ : Type} (s : Exec σ) (code : Nat) :
    (s.writeHeader code).rw.responseHeader = s.rw.responseHeader := by
  by_cases hw : s.rw.wroteHeader = true <;>
    simp [Exec.writeHeader, ResponseWriter.responseHeader, hw, ResponseWriter.WriteHeader]

theorem headerSet_responseHeader {σ : Type} (s : Exec σ) (k : String) (v : GoString)
    (hw : s.rw.wroteHeader = false) :
    (s.headerSet k v).rw.responseHeader = s.rw.handlerHeader.Set k v ∧
    (s.headerSet k v).rw.wroteHeader = false ∧
    (s.headerSet k v).rw.handlerHeader = s.rw.handlerHeader.Set k v := by
  simp [Exec.headerSet, ResponseWriter.responseHeader, hw]

theorem headerAdd_responseHeader {σ : Type} (s : Exec σ) (k : String) (v : GoString)
    (hw : s.rw.wroteHeader = false) :
    (s.headerAdd k v).rw.responseHeader = s.rw.handlerHeader.Add k v ∧
    (s.headerAdd k v).rw.wroteHeader = false ∧
    (s.headerAdd k v).rw.handlerHeader = s.rw.handlerHeader.Add k v := by
  simp [Exec.headerAdd, ResponseWriter.responseHeader, hw]

theorem sendMessage_keepsOrigin {τ σ : Type} (m : message) :
    KeepsOrigin (fun (s : Exec σ) (_ : Request τ) => sendMessage s m) := by
  intro s req hw ho
  simp only
  rw [sendMessage_before_header s m hw]
  simp [ResponseWriter.responseHeader, Header.Values_Add, ho]

theorem validateToken_keepsOrigin {κ τ σ : Type} (jwtParse : JwtParse κ τ) (g : Globals κ)
    (next : Handler τ σ) (hnext : KeepsOrigin next) :
    KeepsOrigin (validateToken jwtParse g next) := by
  intro s req hw ho
  cases hx : extractToken jwtParse g req with
  | error e =>
    rw [validateToken_error_state jwtParse g next s req e hx hw]
    simp [ResponseWriter.responseHeader, ho]
  | ok t =>
    have : validateToken jwtParse g next s req = next s (req.WithValue ctxTokenKey t) := by
      unfold validateToken; rw [hx]
    rw [this]
    exact hnext s _ hw ho

theorem httpError_keepsOrigin {τ σ : Type} (error : String) (code : Nat) :
    KeepsOrigin (httpError error code : Handler τ σ) := by
  intro s req hw ho
  have h1 := headerSet_responseHeader s "Content-Type" (str "text/plain; charset=utf-8") hw
  have h2 := headerSet_responseHeader _ "X-Content-Type-Options" (str "nosniff") h1.2.1
  unfold httpError
  simp only
  rw [write_responseHeader, writeHeader_responseHeader, h2.1, h1.2.2, Header.Values_Set,
    Header.Values_Set, ho]
  simp

theorem redirect_keepsOrigin {τ σ : Type} (lib : NetHTTP) (path query : String) (code : Nat) :
    KeepsOrigin (RedirectHandler lib path query code : Handler τ σ) := by
  intro s req hw ho
  have h1 := headerSet_responseHeader s "Location" (str (lib.redirectLocation path query)) hw
  have h2 := headerSet_responseHeader _ "Content-Type" (str "text/html; charset=utf-8") h1.2.1
  unfold RedirectHandler
  simp only
  split_ifs
  · rw [write_responseHeader, writeHeader_responseHeader, h2.1, h1.2.2, Header.Values_Set,
      Header.Values_Set, ho]
    simp
  · rw [write_responseHeader, writeHeader_responseHeader, h1.1, Header.Values_Set, ho]
    simp
  · rw [writeHeader_responseHeader, h2.1, h1.2.2, Header.Values_Set, Header.Values_Set, ho]
    simp
  · rw [writeHeader_responseHeader, h1.1, Header.Values_Set, ho]
    simp

theorem muxHandler_keepsOrigin {κ τ σ : Type} (jwtParse : JwtParse κ τ) (g : Globals κ)
    (path : String) : KeepsOrigin (muxHandler jwtParse g path : Handler τ σ) := by
  unfold muxHandler
  split_ifs
  · exact sendMessage_keepsOrigin _
  · exact validateToken_keepsOrigin _ _ _ (sendMessage_keepsOrigin _)
  · exact validateToken_keepsOrigin _ _ _ (sendMessage_keepsOrigin _)
  · exact httpError_keepsOrigin _ _

theorem router_keepsOrigin {κ τ σ : Type} (lib : NetHTTP) (jwtParse : JwtParse κ τ)
    (g : Globals κ) : KeepsOrigin (router lib jwtParse g : Handler τ σ) := by
  intro s req hw ho
  have h1 := headerSet_responseHeader s "Connection" (str "close") hw
  have h0 : s.rw.responseHeader = s.rw.handlerHeader := by
    simp [ResponseWriter.responseHeader, hw]
  unfold router
  simp only
  split_ifs
  · rw [writeHeader_responseHeader, h1.1, Header.Values_Set, ho]
    simp
  · rw [writeHeader_responseHeader, h0, ho]
  · exact muxHandler_keepsOrigin jwtParse g _ s req hw ho
  · exact redirect_keepsOrigin lib _ _ _ s req hw ho
  · exact muxHandler_keepsOrigin jwtParse g _ s req hw ho

theorem flagVar_eq_supplied (sets : List (String × String)) (name dflt : String) :
    flagVar sets name dflt = (supplied sets name).getD dflt := by
  induction sets generalizing dflt with
  | nil => rfl
  | cons e es ih =>
    have hstep : flagVar (e :: es) name dflt =
        flagVar es name (if e.1 = name then e.2 else dflt) := rfl
    have hc : supplied (e :: es) name =
        match supplied es name with
        | some v => some v
        | none => if e.1 = name then some e.2 else none := rfl
    rw [hstep, ih, hc]
    cases hs : supplied es name with
    | some v => simp
    | none =>
      by_cases he : e.1 = name <;> simp [he]

theorem loadEnvYAML_values {κ : Type} (p : Process) (g1 : Globals κ)
    (hload : loadEnvYAML p ({} : Globals κ) = .ok g1) :
    g1.auth0Audience = fileValue p.yaml audienceYamlKey ∧
    g1.auth0Domain = fileValue p.yaml domainYamlKey := by
  unfold loadEnvYAML at hload
  cases hwd : p.getwd with
  | error err => rw [hwd] at hload; simp [logFatal] at hload
  | ok wd =>
    rw [hwd] at hload
    cases hy : p.yaml with
    | absent =>
      rw [hy] at hload
      simp only [Except.ok.injEq] at hload
      subst hload
      simp [fileValue]
    | unreadable err => rw [hy] at hload; simp [logFatal] at hload
    | malformed err => rw [hy] at hload; simp [logFatal] at hload
    | mapping cfg =>
      rw [hy] at hload
      simp only [Except.ok.injEq] at hload
      subst hload
      cases hd : cfg.lookup domainYamlKey <;> cases ha : cfg.lookup audienceYamlKey <;>
        simp [fileValue, hd, ha]

/-! ## The properties -/

/-- C1, as amended: when `extractToken` fails with the error `e`, whatever its cause,
`validateToken(H)` responds with status 401, writes as body what `json.Marshal` gives for
the message `e`, the JSON object with the single field `message`, and does not invoke `H`:
the outcome is the same for every `H`, the rest of the state is untouched, and a recording
`H` records no call. When the text of `e` is valid UTF-8 the string literal of the field
stands for the text of `e`. -/
theorem validateToken_rejects {κ τ σ : Type} (jwtParse : JwtParse κ τ) (g : Globals κ)
    (next : Handler τ σ) (s : Exec σ) (req : Request τ) (e : GoString)
    (herr : extractToken jwtParse g req = .error e) (hw : s.rw.wroteHeader = false) :
    (validateToken jwtParse g next s req).rw.status = 401 ∧
    (jsonMarshal ⟨e⟩ = .ok (str "\x7b\"message\":" ++ jsonString e ++ str "\x7d") ∧
      (validateToken jwtParse g next s req).rw.body =
        s.rw.body ++ (str "\x7b\"message\":" ++ jsonString e ++ str "\x7d")) ∧
    (∀ text : String, e = str text → jsonDecodeString (jsonString e) = some e) ∧
    (∀ other : Handler τ σ,
      validateToken jwtParse g other s req = validateToken jwtParse g next s req) ∧
    (validateToken jwtParse g next s req).ext = s.ext ∧
    (∀ calls : List (Request τ),
      (validateToken jwtParse g (recordCalls next) ⟨s.rw, s.stdout, s.logged, (s.ext, calls)⟩
        req).ext.2 = calls) := by
  refine ⟨?_, ⟨rfl, ?_⟩, ?_, ?_, ?_, ?_⟩
  · rw [validateToken_error_state jwtParse g next s req e herr hw]; rfl
  · rw [validateToken_error_state jwtParse g next s req e herr hw]
  · intro text ht
    rw [ht]
    exact jsonDecodeString_jsonString text
  · intro other
    rw [validateToken_error_state jwtParse g next s req e herr hw,
      validateToken_error_state jwtParse g other s req e herr hw]
  · rw [validateToken_error_state jwtParse g next s req e herr hw]
  · intro calls
    rw [validateToken_error_state jwtParse g (recordCalls next) _ req e herr hw]

theorem validateToken_rejects_witness :
    extractToken rejectingParse {} (sampleRequest "GET" "/api/messages/admin"
        [("Authorization", [str "Bearer abc"])]) = .error (str "abc") ∧
      (validateToken rejectingParse {} publicApiHandler (newExec ())
        (sampleRequest "GET" "/api/messages/admin"
          [("Authorization", [str "Bearer abc"])])).rw.status = 401 ∧
      (validateToken rejectingParse {} publicApiHandler (newExec ())
        (sampleRequest "GET" "/api/messages/admin"
          [("Authorization", [str "Bearer abc"])])).rw.body
        = str "\x7b\"message\":\"abc\"\x7d" ∧
      jsonDecodeString (jsonString (str "abc")) = some (str "abc") :=
  ⟨rfl,
   (validateToken_rejects rejectingParse {} publicApiHandler (newExec ())
      (sampleRequest "GET" "/api/messages/admin" [("Authorization", [str "Bearer abc"])])
      (str "abc") rfl rfl).1,
   by decide,
   (validateToken_rejects rejectingParse {} publicApiHandler (newExec ())
      (sampleRequest "GET" "/api/messages/admin" [("Authorization", [str "Bearer abc"])])
      (str "abc") rfl rfl).2.2.1 "abc" rfl⟩

/-- C1, as stated, fails: for the header value that is the one byte 0xFF, `extractToken`
fails with the text `malformed authorization header: ` followed by that byte, and the body
of the 401 response is the JSON object whose field `message` stands for
`malformed authorization header: ` followed by U+FFFD, which is not the text of the error. -/
theorem invalid_utf8_error_text :
    extractToken acceptingParse {} (sampleRequest "GET" "/api/messages/protected"
        [("Authorization", [[0xFF]])])
      = .error (str "malformed authorization header: " ++ [0xFF]) ∧
    (validateToken acceptingParse {} protectedApiHandler (newExec ())
        (sampleRequest "GET" "/api/messages/protected" [("Authorization", [[0xFF]])])).rw.status
      = 401 ∧
    (validateToken acceptingParse {} protectedApiHandler (newExec ())
        (sampleRequest "GET" "/api/messages/protected" [("Authorization", [[0xFF]])])).rw.body
      = str "\x7b\"message\":" ++ str "\"malformed authorization header: \\ufffd\""
          ++ str "\x7d" ∧
    jsonDecodeString (str "\"malformed authorization header: \\ufffd\"")
      = some (str "malformed authorization header: \uFFFD") ∧
    str "malformed authorization header: \uFFFD"
      ≠ str "malformed authorization header: " ++ [0xFF] := by
  refine ⟨rfl, by decide, by decide, by decide, by decide⟩

/-- C2: when the `Authorization` header is absent or its value is the empty string,
then for every parser, key set and audience `extractToken` fails with
`authorization header missing` (the parser has no part in the result), and `validateToken`
responds with status 401 and writes exactly `{"message":"authorization header missing"}`. -/
theorem missing_authorization {κ τ σ : Type} (jwtParse : JwtParse κ τ) (g : Globals κ)
    (next : Handler τ σ) (s : Exec σ) (req : Request τ)
    (habs : req.Header.Has authHeader = false ∨
      (req.Header.Values authHeader).head? = some [])
    (hw : s.rw.wroteHeader = false) :
    extractToken jwtParse g req = .error (str "authorization header missing") ∧
    (validateToken jwtParse g next s req).rw.status = 401 ∧
    (validateToken jwtParse g next s req).rw.body =
      s.rw.body ++ str "\x7b\"message\":\"authorization header missing\"\x7d" := by
  have hget : req.Header.Get authHeader = [] := by
    unfold Header.Get
    rcases habs with h | h
    · have : req.Header.Values authHeader = [] := by
        unfold Header.Has at h
        unfold Header.Values
        cases hf : List.find? (fun e => decide (e.1 = authHeader)) req.Header with
        | none => rfl
        | some e => rw [hf] at h; simp at h
      rw [this]
    · cases hv : req.Header.Values authHeader with
      | nil => rfl
      | cons v vs => rw [hv] at h; simpa using h
  have herr : extractToken jwtParse g req = .error (str "authorization header missing") := by
    simp [extractToken, hget]
  refine ⟨herr, ?_, ?_⟩
  · rw [validateToken_error_state jwtParse g next s req _ herr hw]; rfl
  · rw [validateToken_error_state jwtParse g next s req _ herr hw]
    show s.rw.body ++ (str "\x7b\"message\":" ++
      jsonString (str "authorization header missing") ++ str "\x7d") = _
    have : str "\x7b\"message\":" ++ jsonString (str "authorization header missing")
        ++ str "\x7d" = str "\x7b\"message\":\"authorization header missing\"\x7d" := by
      decide
    rw [this]

theorem missing_authorization_witness :
    (Header.Has ([("Authorization", [[]])] : Header) authHeader = false ∨
      (Header.Values ([("Authorization", [[]])] : Header) authHeader).head? = some []) ∧
    (validateToken acceptingParse {} protectedApiHandler
      (newExec ()) (sampleRequest "GET" "/api/messages/protected"
        [("Authorization", [[]])])).rw.body
      = str "\x7b\"message\":\"authorization header missing\"\x7d" :=
  ⟨Or.inr (by decide),
   by
    have h := (missing_authorization acceptingParse {} protectedApiHandler (newExec ())
      (sampleRequest "GET" "/api/messages/protected" [("Authorization", [[]])])
      (Or.inr (by decide)) rfl).2.2
    rw [h]; decide⟩

/-- C3: when `extractToken` succeeds with the token `t`, `validateToken(H)` is one run of `H`
on the incoming state and on the request whose context has the one more binding of
`Auth0Token` to `t`; the middleware writes nothing itself, so the response is what `H`
produces, and a recording `H` records exactly that one call. -/
theorem validateToken_passes {κ τ σ : Type} (jwtParse : JwtParse κ τ) (g : Globals κ)
    (next : Handler τ σ) (s : Exec σ) (req : Request τ) (t : τ)
    (hok : extractToken jwtParse g req = .ok t) :
    validateToken jwtParse g next s req =
      next s { req with ctx := ("Auth0Token", t) :: req.ctx } ∧
    (∀ calls : List (Request τ),
      (validateToken jwtParse g (recordCalls next) ⟨s.rw, s.stdout, s.logged, (s.ext, calls)⟩
        req).ext.2 = calls ++ [{ req with ctx := ("Auth0Token", t) :: req.ctx }]) := by
  constructor
  · unfold validateToken
    rw [hok]
    rfl
  · intro calls
    unfold validateToken
    rw [hok]
    rfl

theorem validateToken_passes_witness :
    extractToken acceptingParse {} (sampleRequest "GET" "/api/messages/protected"
      [("Authorization", [str "Bearer abc"])]) = .ok (str "abc") ∧
    validateToken acceptingParse {} protectedApiHandler (newExec ())
        (sampleRequest "GET" "/api/messages/protected" [("Authorization", [str "Bearer abc"])]) =
      protectedApiHandler (newExec ())
        { (sampleRequest "GET" "/api/messages/protected" [("Authorization", [str "Bearer abc"])] :
            Request GoString) with ctx := [("Auth0Token", str "abc")] } :=
  ⟨rfl,
   (validateToken_passes acceptingParse {} protectedApiHandler (newExec ())
      (sampleRequest "GET" "/api/messages/protected" [("Authorization", [str "Bearer abc"])])
      (str "abc") rfl).1⟩

/-- C4, evaluated on the code: for a request without `Authorization` header the 401 response
of `validateToken` has no `Content-Type` header among the headers present when `WriteHeader`
is called; `sendMessage` adds it to the writer afterwards. The 200 response of a message
handler, which calls `sendMessage` before any `WriteHeader`, has it. -/
theorem unauthorized_lacks_content_type {κ τ σ : Type} (jwtParse : JwtParse κ τ)
    (g : Globals κ) (next : Handler τ σ) (ext : σ) :
    (serve (validateToken jwtParse g next) ext
      (sampleRequest "GET" "/api/messages/protected" [])).status = 401 ∧
    (serve (validateToken jwtParse g next) ext
      (sampleRequest "GET" "/api/messages/protected" [])).header = [] ∧
    (serve (validateToken jwtParse g next) ext
      (sampleRequest "GET" "/api/messages/protected" [])).header.Values "Content-Type" = [] ∧
    (validateToken jwtParse g next (newExec ext)
      (sampleRequest "GET" "/api/messages/protected" [])).rw.handlerHeader.Values
        "Content-Type" = [str "application/json"] ∧
    (serve (publicApiHandler : Handler τ σ) ext
      (sampleRequest "GET" "/api/messages/public" [])).header.Values "Content-Type"
        = [str "application/json"] := by
  have herr : extractToken jwtParse g (sampleRequest "GET" "/api/messages/protected" [])
      = .error (str "authorization header missing") := by
    simp [extractToken, sampleRequest, Header.Get, Header.Values]
  have hst := validateToken_error_state jwtParse g next (newExec ext)
    (sampleRequest "GET" "/api/messages/protected" []) _ herr rfl
  have hserve : ∀ (h : Handler τ σ) (r : Request τ),
      serve h ext r = ⟨(if (h (newExec ext) r).rw.wroteHeader then (h (newExec ext) r).rw
          else (h (newExec ext) r).rw.WriteHeader StatusOK).status,
        (if (h (newExec ext) r).rw.wroteHeader then (h (newExec ext) r).rw
          else (h (newExec ext) r).rw.WriteHeader StatusOK).sentHeader,
        (if (h (newExec ext) r).rw.wroteHeader then (h (newExec ext) r).rw
          else (h (newExec ext) r).rw.WriteHeader StatusOK).body⟩ := fun _ _ => rfl
  refine ⟨?_, ?_, ?_, ?_, ?_⟩
  · rw [hserve, hst]; rfl
  · rw [hserve, hst]; rfl
  · rw [hserve, hst]; rfl
  · rw [hst]; rfl
  · rw [hserve]
    unfold publicApiHandler
    rw [sendMessage_before_header _ _ rfl]
    rfl

/-- C6: for a request whose method is `OPTIONS`, `handleCORS` answers a new response writer
with status 204, the header `Access-Control-Allow-Headers: Authorization` and an empty body,
and does not invoke the inner handler (the outcome is the same for every inner handler, and a
recording one records no call); for any other method it is one run of the inner handler on
the state in which only `Access-Control-Allow-Origin` has been added, so that
`Access-Control-Allow-Headers` is as it was. -/
theorem handleCORS_preflight {τ σ : Type} (next : Handler τ σ) (req : Request τ) :
    (req.Method = "OPTIONS" →
      (∀ ext : σ, serve (handleCORS next) ext req =
        ⟨204, [("Access-Control-Allow-Origin", [str "http://localhost:4040"]),
               ("Access-Control-Allow-Headers", [str "Authorization"])], []⟩) ∧
      (∀ (s : Exec σ) (other : Handler τ σ), handleCORS other s req = handleCORS next s req) ∧
      (∀ (s : Exec σ) (calls : List (Request τ)),
        (handleCORS (recordCalls next) ⟨s.rw, s.stdout, s.logged, (s.ext, calls)⟩ req).ext.2
          = calls)) ∧
    (req.Method ≠ "OPTIONS" →
      ∀ s : Exec σ,
        handleCORS next s req =
          next (s.headerAdd "Access-Control-Allow-Origin" (str "http://localhost:4040")) req ∧
        (s.headerAdd "Access-Control-Allow-Origin" (str "http://localhost:4040")
          ).rw.handlerHeader.Values "Access-Control-Allow-Headers"
          = s.rw.handlerHeader.Values "Access-Control-Allow-Headers" ∧
        ∀ calls : List (Request τ),
          (handleCORS (recordCalls next) ⟨s.rw, s.stdout, s.logged, (s.ext, calls)⟩ req).ext.2
            = calls ++ [req]) := by
  constructor
  · intro hm
    refine ⟨?_, ?_, ?_⟩
    · intro ext
      simp [serve, newExec, handleCORS, hm, Exec.write, Exec.writeHeader, Exec.headerAdd,
        ResponseWriter.Write, ResponseWriter.WriteHeader, StatusNoContent, Header.Add,
        Header.Del, Header.Values, corsAllowedDomain]
    · intro s other
      simp [handleCORS, hm]
    · intro s calls
      simp [handleCORS, hm, Exec.write, Exec.writeHeader, Exec.headerAdd,
        ResponseWriter.Write]
  · intro hm s
    refine ⟨?_, ?_, ?_⟩
    · simp [handleCORS, hm, corsAllowedDomain]
    · simp [Exec.headerAdd, Header.Values_Add]
    · intro calls
      simp [handleCORS, hm, recordCalls, Exec.headerAdd]

theorem handleCORS_preflight_witness :
    (sampleRequest "OPTIONS" "/api/messages/protected" [] : Request Unit).Method = "OPTIONS" ∧
    serve (handleCORS protectedApiHandler) ()
        (sampleRequest "OPTIONS" "/api/messages/protected" [] : Request Unit) =
      ⟨204, [("Access-Control-Allow-Origin", [str "http://localhost:4040"]),
             ("Access-Control-Allow-Headers", [str "Authorization"])], []⟩ ∧
    (sampleRequest "GET" "/api/messages/public" [] : Request Unit).Method ≠ "OPTIONS" ∧
    handleCORS publicApiHandler (newExec ())
        (sampleRequest "GET" "/api/messages/public" [] : Request Unit) =
      publicApiHandler
        ((newExec ()).headerAdd "Access-Control-Allow-Origin" (str "http://localhost:4040"))
        (sampleRequest "GET" "/api/messages/public" [] : Request Unit) :=
  ⟨rfl,
   ((handleCORS_preflight protectedApiHandler
      (sampleRequest "OPTIONS" "/api/messages/protected" [] : Request Unit)).1 rfl).1 (),
   by decide,
   ((handleCORS_preflight publicApiHandler
      (sampleRequest "GET" "/api/messages/public" [] : Request Unit)).2 (by decide)
      (newExec ())).1⟩

/-- C9, as amended: for a header value that contains a space, the candidate `extractToken`
hands to the token parser is the portion after the first space up to the next space; it is
the entire portion after the first space when that portion contains no further space. -/
theorem extractToken_candidate {κ τ : Type} (jwtParse : JwtParse κ τ) (g : Globals κ)
    (req : Request τ) (hs : spaceByte ∈ req.Header.Get authHeader) :
    extractToken jwtParse g req =
      jwtParse (tokenCandidate (req.Header.Get authHeader)) g.tenantKeys g.auth0Audience ∧
    (spaceByte ∉ afterFirstSpace (req.Header.Get authHeader) →
      tokenCandidate (req.Header.Get authHeader) =
        afterFirstSpace (req.Header.Get authHeader)) := by
  refine ⟨extractToken_space jwtParse g req hs, ?_⟩
  intro hno
  unfold tokenCandidate
  unfold afterFirstSpace at hno ⊢
  rw [List.takeWhile_eq_self_iff]
  intro c hc
  have : c ≠ spaceByte := fun h => hno (h ▸ hc)
  simpa using this

theorem extractToken_candidate_witness :
    spaceByte ∈ Header.Get ([("Authorization", [str "Bearer abc def"])] : Header) authHeader ∧
    extractToken rejectingParse {}
      (sampleRequest "GET" "/api/messages/protected" [("Authorization", [str "Bearer abc def"])])
      = .error (str "abc") :=
  ⟨by decide,
   (extractToken_candidate rejectingParse {}
      (sampleRequest "GET" "/api/messages/protected" [("Authorization", [str "Bearer abc def"])])
      (by decide)).1⟩

/-- C9, as stated, fails: for the header `Bearer abc def` the parser is handed `abc`, not
the entire portion `abc def` after the first space. -/
theorem second_space_cuts_candidate :
    spaceByte ∈ Header.Get ([("Authorization", [str "Bearer abc def"])] : Header) authHeader ∧
    afterFirstSpace (Header.Get ([("Authorization", [str "Bearer abc def"])] : Header) authHeader)
      = str "abc def" ∧
    extractToken rejectingParse {}
      (sampleRequest "GET" "/api/messages/protected" [("Authorization", [str "Bearer abc def"])])
      = rejectingParse (str "abc") none "" ∧
    extractToken rejectingParse {}
      (sampleRequest "GET" "/api/messages/protected" [("Authorization", [str "Bearer abc def"])])
      ≠ rejectingParse (afterFirstSpace
          (Header.Get ([("Authorization", [str "Bearer abc def"])] : Header) authHeader)) none "" := by
  refine ⟨by decide, by decide, rfl, ?_⟩
  intro h
  have h2 : (Except.error (str "abc") : Except GoString GoString)
      = Except.error (str "abc def") := h
  injection h2 with h3
  exact absurd h3 (by decide)

/-- C10: for a non-empty header value `h`: when `h` contains no space `extractToken` fails
with `malformed authorization header: ` followed by `h`, whatever the parser is; when `h`
contains a space the result is what the parser returns for the extracted candidate, whatever
stands before the space. -/
theorem extractToken_nonempty {κ τ : Type} (jwtParse : JwtParse κ τ) (g : Globals κ)
    (req : Request τ) (hne : req.Header.Get authHeader ≠ []) :
    (spaceByte ∉ req.Header.Get authHeader →
      extractToken jwtParse g req =
        .error (str "malformed authorization header: " ++ req.Header.Get authHeader)) ∧
    (spaceByte ∈ req.Header.Get authHeader →
      extractToken jwtParse g req =
        jwtParse ((stringsSplit spaceByte (req.Header.Get authHeader)).getD 1 [])
          g.tenantKeys g.auth0Audience ∧
      (stringsSplit spaceByte (req.Header.Get authHeader)).getD 1 [] =
        tokenCandidate (req.Header.Get authHeader)) := by
  constructor
  · intro hs
    have h1 := stringsSplit_no_space _ hs
    simp [extractToken, hne, h1]
  · intro hs
    have h2 := stringsSplit_space _ hs
    refine ⟨?_, h2.2⟩
    rw [h2.2]
    exact extractToken_space jwtParse g req hs

theorem extractToken_nonempty_witness :
    Header.Get ([("Authorization", [str "Bearerabc"])] : Header) authHeader ≠ [] ∧
    spaceByte ∉ Header.Get ([("Authorization", [str "Bearerabc"])] : Header) authHeader ∧
    extractToken acceptingParse {}
      (sampleRequest "GET" "/api/messages/protected" [("Authorization", [str "Bearerabc"])])
      = .error (str "malformed authorization header: Bearerabc") ∧
    Header.Get ([("Authorization", [str "Basic abc"])] : Header) authHeader ≠ [] ∧
    spaceByte ∈ Header.Get ([("Authorization", [str "Basic abc"])] : Header) authHeader ∧
    extractToken acceptingParse {}
      (sampleRequest "GET" "/api/messages/protected" [("Authorization", [str "Basic abc"])])
      = .ok (str "abc") :=
  ⟨by decide, by decide,
   (extractToken_nonempty acceptingParse {}
      (sampleRequest "GET" "/api/messages/protected" [("Authorization", [str "Bearerabc"])])
      (by decide)).1 (by decide),
   by decide, by decide,
   ((extractToken_nonempty acceptingParse {}
      (sampleRequest "GET" "/api/messages/protected" [("Authorization", [str "Basic abc"])])
      (by decide)).2 (by decide)).1⟩

/-- C5: for every request, whatever its method, path and headers, the response of
`handleCORS` around the router of `main` carries the header
`Access-Control-Allow-Origin: http://localhost:4040`; this covers the 200 of the message
routes, the 401 of the auth middleware, the 404 of unknown paths, the 204 of preflight and
the replies of the router itself. -/
theorem cors_origin_on_every_response {κ τ σ : Type} (lib : NetHTTP) (jwtParse : JwtParse κ τ)
    (g : Globals κ) (ext : σ) (req : Request τ) :
    (serve (routerWithCORS lib jwtParse g) ext req).header.Values
      "Access-Control-Allow-Origin" = [str "http://localhost:4040"] := by
  have hserve : (serve (routerWithCORS lib jwtParse g) ext req).header =
      (routerWithCORS lib jwtParse g (newExec ext) req).rw.responseHeader := by
    unfold serve ResponseWriter.responseHeader newExec
    simp only
    split_ifs <;> simp_all [ResponseWriter.WriteHeader]
  have h1 := headerAdd_responseHeader (newExec ext) "Access-Control-Allow-Origin"
    corsAllowedDomain rfl
  have ho : ((newExec ext).headerAdd "Access-Control-Allow-Origin"
      corsAllowedDomain).rw.handlerHeader.Values "Access-Control-Allow-Origin"
      = [corsAllowedDomain] := by
    rw [h1.2.2, Header.Values_Add]
    simp [newExec, Header.Values_nil]
  have h2 := headerAdd_responseHeader _ "Access-Control-Allow-Headers" (str "Authorization")
    h1.2.1
  rw [hserve]
  show _ = [corsAllowedDomain]
  unfold routerWithCORS handleCORS
  simp only
  by_cases hm : req.Method = "OPTIONS"
  · simp only [hm, ne_eq, not_true_eq_false, if_false]
    have hw : ∀ s : Exec σ, (match s.write [] with
        | (s4, some err) => s4.logPrint "http response (options) write error" err
        | (s4, none) => s4).rw = (s.write []).1.rw := by
      intro s
      simp [Exec.write, ResponseWriter.Write, Exec.logPrint]
    rw [hw, write_responseHeader, writeHeader_responseHeader, h2.1, Header.Values_Add, ho]
    simp
  · simp only [ne_eq, hm, not_false_eq_true, if_true]
    exact router_keepsOrigin lib jwtParse g _ req h1.2.1 ho

/-- C7, as amended: when `env.yaml` loads and the command line parses, `parseArgs` returns,
and the audience is the value supplied for the flag `-a` if it was supplied with a non-empty
value; the file value if `-a` was supplied with an empty value; and when `-a` was not
supplied, `AUTH0_AUDIENCE` if non-empty and otherwise the file value. The same holds for the
domain with `-d`, `AUTH0_DOMAIN` and `auth0-domain`. -/
theorem config_precedence {κ : Type} (p : Process) (g1 : Globals κ)
    (sets : List (String × String))
    (hload : loadEnvYAML p ({} : Globals κ) = .ok g1)
    (hflags : flagParse p p.args = .ok sets) :
    ∃ g2 : Globals κ, parseArgs p g1 = .ok g2 ∧
      g2.auth0Audience = precedenceCode (supplied sets "a") (p.Getenv "AUTH0_AUDIENCE")
        (fileValue p.yaml "auth0-audience") ∧
      g2.auth0Domain = precedenceCode (supplied sets "d") (p.Getenv "AUTH0_DOMAIN")
        (fileValue p.yaml "auth0-domain") := by
  obtain ⟨ha, hd⟩ := loadEnvYAML_values p g1 hload
  unfold parseArgs
  rw [hflags]
  refine ⟨_, rfl, ?_, ?_⟩
  · simp only [flagVar_eq_supplied]
    unfold precedenceCode
    cases hs : supplied sets "a" with
    | none =>
      by_cases hE : p.Getenv "AUTH0_AUDIENCE" = ""
      · by_cases hD : (supplied sets "d").getD (p.Getenv "AUTH0_DOMAIN") = "" <;>
          simp [hE, hD, ha, audienceYamlKey]
      · by_cases hD : (supplied sets "d").getD (p.Getenv "AUTH0_DOMAIN") = "" <;>
          simp [hE, hD, ha]
    | some v =>
      by_cases hv : v = ""
      · by_cases hD : (supplied sets "d").getD (p.Getenv "AUTH0_DOMAIN") = "" <;>
          simp [hv, hD, ha, audienceYamlKey]
      · by_cases hD : (supplied sets "d").getD (p.Getenv "AUTH0_DOMAIN") = "" <;>
          simp [hv, hD, ha]
  · simp only [flagVar_eq_supplied]
    unfold precedenceCode
    cases hs : supplied sets "d" with
    | none =>
      by_cases hE : p.Getenv "AUTH0_DOMAIN" = ""
      · by_cases hA : (supplied sets "a").getD (p.Getenv "AUTH0_AUDIENCE") = "" <;>
          simp [hE, hA, hd, domainYamlKey]
      · by_cases hA : (supplied sets "a").getD (p.Getenv "AUTH0_AUDIENCE") = "" <;>
          simp [hE, hA, hd]
    | some v =>
      by_cases hv : v = ""
      · by_cases hA : (supplied sets "a").getD (p.Getenv "AUTH0_AUDIENCE") = "" <;>
          simp [hv, hA, hd, domainYamlKey]
      · by_cases hA : (supplied sets "a").getD (p.Getenv "AUTH0_AUDIENCE") = "" <;>
          simp [hv, hA, hd]

theorem config_precedence_witness :
    loadEnvYAML emptyFlagProcess ({} : Globals Unit) =
      .ok { auth0Audience := "file", auth0Domain := "tenant.example.com" } ∧
    flagParse emptyFlagProcess emptyFlagProcess.args = .ok [("a", "")] ∧
    ∃ g2 : Globals Unit,
      parseArgs emptyFlagProcess { auth0Audience := "file", auth0Domain := "tenant.example.com" }
        = .ok g2 ∧
      g2.auth0Audience = precedenceCode (supplied [("a", "")] "a")
        (emptyFlagProcess.Getenv "AUTH0_AUDIENCE")
        (fileValue emptyFlagProcess.yaml "auth0-audience") ∧
      g2.auth0Domain = precedenceCode (supplied [("a", "")] "d")
        (emptyFlagProcess.Getenv "AUTH0_DOMAIN")
        (fileValue emptyFlagProcess.yaml "auth0-domain") :=
  ⟨rfl, rfl, config_precedence emptyFlagProcess _ [("a", "")] rfl rfl⟩

/-- C7, as stated, fails: with the file value `file`, `AUTH0_AUDIENCE=env` and the command
line `-a ""`, the flag is supplied with an empty value, the stated precedence gives `env`,
and `loadEnvYAML` followed by `parseArgs` resolves the audience to `file`. -/
theorem empty_flag_masks_env :
    supplied [("a", "")] "a" = some "" ∧
    flagParse emptyFlagProcess emptyFlagProcess.args = .ok [("a", "")] ∧
    emptyFlagProcess.Getenv "AUTH0_AUDIENCE" = "env" ∧
    fileValue emptyFlagProcess.yaml "auth0-audience" = "file" ∧
    precedenceSpec (some "") "env" "file" = "env" ∧
    ((loadEnvYAML emptyFlagProcess ({} : Globals Unit)).bind
      (parseArgs emptyFlagProcess)).map (fun g => g.auth0Audience) = .ok "file" ∧
    ((loadEnvYAML emptyFlagProcess ({} : Globals Unit)).bind
      (parseArgs emptyFlagProcess)).map (fun g => g.auth0Audience) ≠
      .ok (precedenceSpec (supplied [("a", "")] "a") (emptyFlagProcess.Getenv "AUTH0_AUDIENCE")
        (fileValue emptyFlagProcess.yaml "auth0-audience")) := by
  refine ⟨rfl, rfl, rfl, rfl, rfl, rfl, ?_⟩
  intro h
  have h2 : (Except.ok "file" : Except Exit String) = Except.ok "env" := h
  injection h2 with h3
  exact absurd h3 (by decide)

/-- C8: when `initConfig` returns normally the audience and the issuer domain are both
non-empty; when `loadEnvYAML` followed by `parseArgs` leaves one of them empty, `initConfig`
ends the process with exit status 1 after printing a message and the usage; so `main`
reaches the state it serves from only with both non-empty, and when `initConfig` ends the
process the JWKS fetch has no part in the outcome. -/
theorem initConfig_nonempty {κ : Type} (p : Process) (g : Globals κ) :
    (∀ g2 : Globals κ, initConfig p g = .ok g2 →
      g2.auth0Audience ≠ "" ∧ g2.auth0Domain ≠ "") ∧
    (∀ g2 : Globals κ, (loadEnvYAML p g).bind (parseArgs p) = .ok g2 →
      (g2.auth0Audience = "" ∨ g2.auth0Domain = "") →
      ∃ message : String, initConfig p g =
        .error ⟨1, [message ++ "\n\n", "Usage of " ++ p.prog ++ ":\n", p.defaults]⟩) ∧
    (∀ (fetch : JwkFetch κ) (g2 : Globals κ), mainStartup fetch p = .ok g2 →
      g2.auth0Audience ≠ "" ∧ g2.auth0Domain ≠ "") ∧
    (∀ e : Exit, initConfig p ({} : Globals κ) = .error e →
      ∀ fetch : JwkFetch κ, mainStartup fetch p = .error e) := by
  have hret : ∀ (g0 g2 : Globals κ), initConfig p g0 = .ok g2 →
      g2.auth0Audience ≠ "" ∧ g2.auth0Domain ≠ "" := by
    intro g0 g2 h
    unfold initConfig at h
    cases h1 : loadEnvYAML p g0 with
    | error e => rw [h1] at h; simp at h
    | ok g1 =>
      rw [h1] at h
      dsimp only at h
      cases h2 : parseArgs p g1 with
      | error e => rw [h2] at h; simp at h
      | ok g3 =>
        rw [h2] at h
        simp only at h
        by_cases ha : g3.auth0Audience = ""
        · simp [ha, exitWithError] at h
        · by_cases hd : g3.auth0Domain = ""
          · simp [ha, hd, exitWithError] at h
          · simp only [ha, hd, if_false, Except.ok.injEq] at h
            subst h
            exact ⟨ha, hd⟩
  refine ⟨hret g, ?_, ?_, ?_⟩
  · intro g2 hm hempty
    unfold initConfig
    cases h1 : loadEnvYAML p g with
    | error e => rw [h1] at hm; simp [Except.bind] at hm
    | ok g1 =>
      rw [h1] at hm
      have h2 : parseArgs p g1 = .ok g2 := hm
      dsimp only
      rw [h2]
      dsimp only
      by_cases ha : g2.auth0Audience = ""
      · exact ⟨"Auth0 API identifier (as audience) missing", by simp [ha, exitWithError]⟩
      · have hd : g2.auth0Domain = "" := by
          rcases hempty with h | h
          · exact absurd h ha
          · exact h
        exact ⟨"Auth0 API tenant domain missing", by simp [ha, hd, exitWithError]⟩
  · intro fetch g2 h
    unfold mainStartup at h
    cases h1 : initConfig p ({} : Globals κ) with
    | error e => rw [h1] at h; simp at h
    | ok g1 =>
      rw [h1] at h
      have hne := hret _ g1 h1
      unfold fetchTenantKeys at h
      simp only at h
      cases hf : fetch ("https://" ++ g1.auth0Domain ++ "/.well-known/jwks.json") with
      | error err => rw [hf] at h; simp [logFatal] at h
      | ok set =>
        rw [hf] at h
        simp only [Except.ok.injEq] at h
        subst h
        exact hne
  · intro e h fetch
    unfold mainStartup
    rw [h]

theorem initConfig_nonempty_witness :
    initConfig flagsProcess ({} : Globals Unit) =
      .ok { auth0Audience := "https://example/api", auth0Domain := "tenant.example.com" } ∧
    ("https://example/api" ≠ "" ∧ "tenant.example.com" ≠ "") ∧
    (loadEnvYAML noDomainProcess ({} : Globals Unit)).bind (parseArgs noDomainProcess) =
      .ok { auth0Audience := "https://example/api", auth0Domain := "" } ∧
    (∃ message : String, initConfig noDomainProcess ({} : Globals Unit) =
      .error ⟨1, [message ++ "\n\n", "Usage of " ++ noDomainProcess.prog ++ ":\n",
        noDomainProcess.defaults]⟩) :=
  ⟨rfl,
   (initConfig_nonempty flagsProcess ({} : Globals Unit)).1 _ rfl,
   rfl,
   (initConfig_nonempty noDomainProcess ({} : Globals Unit)).2.1 _ rfl (Or.inr rfl)⟩

end Diary
